import Mathlib

/-!
Verification development for the Calculator Agent
(src/Calculator_agent.py): a shallow embedding of the safe expression
evaluator, the unit converter, the intent classifier, the helpers, the
handlers and the dispatcher, followed by theorems checking the
specification's claims.

Modelling conventions:
* Python numbers are modelled as exact rationals (ℚ); the claims under
  study only exercise arithmetic that is exact in this model.
* A Python function that may raise is modelled as returning
  `Except PyErr α`; a propagating exception is the `.error` case.
* Python dicts returned by handlers are modelled by the `Record`
  structure; a key absent from the dict is a `none` field.
* Library routines used by the code (`re` searches, `str` conversion,
  `csv.writer`, `statistics.mean` / `statistics.median`, `ast.parse`)
  are modelled faithfully for the fragment of inputs the program feeds
  them.
-/

namespace CalcAgent

/-- Python exception values: the classes this program can raise, plus
`unmodelled`, which marks an outcome (an irrational function value)
falling outside the exact rational model; no claim exercises those. -/
inductive PyErr where
  | valueError (msg : String)
  | typeError (msg : String)
  | keyError (msg : String)
  | attributeError (msg : String)
  | syntaxError (msg : String)
  | zeroDivisionError (msg : String)
  | unmodelled (msg : String)
  deriving DecidableEq

/-- Decidable equality for `Except` results, used to evaluate concrete runs. -/
def exceptDecEq {ε α : Type} [DecidableEq ε] [DecidableEq α] :
    DecidableEq (Except ε α) := fun a b =>
  match a, b with
  | .ok x, .ok y =>
      if h : x = y then .isTrue (by rw [h]) else .isFalse (by intro hc; cases hc; exact h rfl)
  | .ok _, .error _ => .isFalse (by intro hc; cases hc)
  | .error _, .ok _ => .isFalse (by intro hc; cases hc)
  | .error e, .error f =>
      if h : e = f then .isTrue (by rw [h]) else .isFalse (by intro hc; cases hc; exact h rfl)

instance {ε α : Type} [DecidableEq ε] [DecidableEq α] : DecidableEq (Except ε α) :=
  exceptDecEq

/-! ## Exact rational arithmetic

The Python numbers the claims exercise are modelled as ℚ.  Mathlib's
field operations on `Rat` are `@[irreducible]`, so the arithmetic the
program performs is written with the kernel-reducible smart constructor
`mkRat`; the `q*_eq` bridge lemmas prove each operation equal to the
corresponding ℚ field operation. -/

/-- Rational addition (`operator.add`). -/
def qAdd (a b : ℚ) : ℚ := mkRat (a.num * b.den + b.num * a.den) (a.den * b.den)

/-- Rational negation (`operator.neg`). -/
def qNeg (a : ℚ) : ℚ := mkRat (-a.num) a.den

/-- Rational subtraction (`operator.sub`). -/
def qSub (a b : ℚ) : ℚ := qAdd a (qNeg b)

/-- Rational multiplication (`operator.mul`). -/
def qMul (a b : ℚ) : ℚ := mkRat (a.num * b.num) (a.den * b.den)

/-- Rational division (`operator.truediv` away from the zero check). -/
def qDiv (a b : ℚ) : ℚ := Rat.divInt (a.num * b.den) (a.den * b.num)

/-- Rational absolute value (builtin `abs` / `math.fabs`). -/
def qAbs (a : ℚ) : ℚ := mkRat (a.num.natAbs : ℤ) a.den

/-- Floor of a rational as an integer. -/
def qFloor (a : ℚ) : ℤ := Int.fdiv a.num a.den

/-- Ceiling of a rational as an integer. -/
def qCeil (a : ℚ) : ℤ := -Int.fdiv (-a.num) a.den

/-- Rational integer power (`operator.pow` on an integral exponent). -/
def qPowInt (a : ℚ) : ℤ → ℚ
  | .ofNat m => mkRat (a.num ^ m) (a.den ^ m)
  | .negSucc m => Rat.divInt ((a.den : ℤ) ^ (m + 1)) (a.num ^ (m + 1))

theorem qAdd_eq (a b : ℚ) : qAdd a b = a + b := by
  have ha : (a.den : ℚ) ≠ 0 := Nat.cast_ne_zero.mpr a.den_ne_zero
  have hb : (b.den : ℚ) ≠ 0 := Nat.cast_ne_zero.mpr b.den_ne_zero
  rw [qAdd, Rat.mkRat_eq_divInt, Rat.divInt_eq_div]
  push_cast
  conv_rhs => rw [← Rat.num_div_den a, ← Rat.num_div_den b]
  rw [div_add_div _ _ ha hb]
  ring_nf

theorem qNeg_eq (a : ℚ) : qNeg a = -a := by
  rw [qNeg, Rat.mkRat_eq_divInt, Rat.divInt_eq_div]
  push_cast
  rw [neg_div, Rat.num_div_den]

theorem qSub_eq (a b : ℚ) : qSub a b = a - b := by
  rw [qSub, qAdd_eq, qNeg_eq, sub_eq_add_neg]

theorem qMul_eq (a b : ℚ) : qMul a b = a * b := by
  rw [qMul, Rat.mkRat_eq_divInt, Rat.divInt_eq_div]
  push_cast
  conv_rhs => rw [← Rat.num_div_den a, ← Rat.num_div_den b]
  rw [div_mul_div_comm]

theorem qDiv_eq (a b : ℚ) : qDiv a b = a / b := by
  rw [qDiv, Rat.divInt_eq_div]
  push_cast
  rcases eq_or_ne b 0 with hb | hb
  · subst hb
    simp
  · have ha : (a.den : ℚ) ≠ 0 := Nat.cast_ne_zero.mpr a.den_ne_zero
    have hbd : (b.den : ℚ) ≠ 0 := Nat.cast_ne_zero.mpr b.den_ne_zero
    have hbn : (b.num : ℚ) ≠ 0 := by
      exact_mod_cast Int.cast_ne_zero.mpr (Rat.num_ne_zero.mpr hb)
    conv_rhs => rw [← Rat.num_div_den a, ← Rat.num_div_den b]
    field_simp

theorem qPowInt_eq (a : ℚ) (n : ℤ) : qPowInt a n = a ^ n := by
  cases n with
  | ofNat m =>
      rw [qPowInt, Rat.mkRat_eq_divInt, Rat.divInt_eq_div]
      push_cast
      rw [show ((Int.ofNat m : ℤ)) = (m : ℤ) from rfl, zpow_natCast]
      conv_rhs => rw [← Rat.num_div_den a]
      rw [div_pow]
  | negSucc m =>
      rw [qPowInt, Rat.divInt_eq_div, zpow_negSucc]
      push_cast
      rcases eq_or_ne a 0 with h | h
      · subst h
        simp
      · have hn : (a.num : ℚ) ≠ 0 := by
          exact_mod_cast Int.cast_ne_zero.mpr (Rat.num_ne_zero.mpr h)
        conv_rhs => rw [← Rat.num_div_den a]
        rw [div_pow, inv_div]

/-! ## String helpers modelling Python `str` and `re` primitives -/

/-- ASCII lowercasing of one character, as Python `str.lower` acts on the
program's ASCII inputs. -/
def pyLowerChar (c : Char) : Char := c.toLower

/-- Python `str.lower` on ASCII input. -/
def pyLower (s : String) : String := String.mk (s.data.map pyLowerChar)

/-- Python whitespace, for `\s` and `str.strip`. -/
def isPySpace (c : Char) : Bool :=
  c = ' ' || c = '\t' || c = '\n' || c = '\r' || c = '\x0b' || c = '\x0c'

/-- Python `str.strip`. -/
def pyStrip (s : String) : String :=
  String.mk (((s.data.dropWhile isPySpace).reverse.dropWhile isPySpace).reverse)

/-- Does pattern `p` occur starting at index `i` of `s`? -/
def prefixAt (s p : List Char) (i : Nat) : Bool :=
  List.isPrefixOf p (s.drop i)

/-- Python regex word character `\w` on ASCII input. -/
def isWordChar (c : Char) : Bool := c.isAlphanum || c = '_'

/-- A `\b` word boundary holds before index `i`.  All patterns searched
here start with a word character, so only the preceding character
matters. -/
def boundaryAt (s : List Char) (i : Nat) : Bool :=
  match i with
  | 0 => true
  | j + 1 => !(isWordChar (s.getD j ' '))

/-- `re.search` of `\b(p₁|p₂|…)`: some pattern matches at some
word-boundary position of `s`. -/
def reWordSearch (s : String) (pats : List String) : Bool :=
  (List.range (s.length + 1)).any (fun i =>
    boundaryAt s.data i && pats.any (fun p => prefixAt s.data p.data i))

/-- Python `sub in s` substring containment. -/
def pyContains (s sub : String) : Bool :=
  (List.range (s.length + 1)).any (fun i => prefixAt s.data sub.data i)

/-- Python `s.startswith(p)`. -/
def pyStartsWith (s p : String) : Bool := List.isPrefixOf p.data s.data

/-! ## Number extraction (`re.findall(r"-?\d+\.?\d*", text)` and `float`) -/

/-- Leading run of ASCII digits. -/
def digitsTake (l : List Char) : List Char := l.takeWhile Char.isDigit

/-- Match `\d+\.?\d*` at the head of `l`; returns the matched characters
and the rest of the input. -/
def numMatchCore (l : List Char) : Option (List Char × List Char) :=
  let ds := digitsTake l
  if ds.isEmpty then none
  else
    match l.drop ds.length with
    | '.' :: r2 =>
        let fs := digitsTake r2
        some (ds ++ '.' :: fs, r2.drop fs.length)
    | r1 => some (ds, r1)

/-- Match `-?\d+\.?\d*` at the head of `cs` (a `-` is consumed only when
digits follow, exactly as the regex backtracks). -/
def numMatchAt (cs : List Char) : Option (List Char × List Char) :=
  match cs with
  | '-' :: rest =>
      match numMatchCore rest with
      | some (m, r) => some ('-' :: m, r)
      | none => none
  | _ => numMatchCore cs

/-- `re.findall` scan: at each position try the number pattern; on a
match continue after it, otherwise advance one character.  The fuel is
always at least the length of the input plus one, which is sufficient. -/
def findNumsAux : Nat → List Char → List (List Char)
  | 0, _ => []
  | _, [] => []
  | fuel + 1, c :: cs =>
      match numMatchAt (c :: cs) with
      | some (m, r) => m :: findNumsAux fuel r
      | none => findNumsAux fuel cs

/-- All matches of `-?\d+\.?\d*` in `s`, leftmost and non-overlapping. -/
def pyFindallNums (s : String) : List (List Char) :=
  findNumsAux (s.data.length + 1) s.data

/-- Numeric value of a digit run. -/
def digitsValNat (ds : List Char) : ℕ :=
  ds.foldl (fun acc c => acc * 10 + (c.toNat - '0'.toNat)) 0

/-- Python `float` on an unsigned token matched by `\d+\.?\d*`: the
exact decimal value of the token. -/
def floatOfCharsPos (cs : List Char) : ℚ :=
  let ip := digitsTake cs
  match cs.drop ip.length with
  | '.' :: r =>
      let fp := digitsTake r
      mkRat ((digitsValNat ip * 10 ^ fp.length + digitsValNat fp : ℕ) : ℤ) (10 ^ fp.length)
  | _ => ((digitsValNat ip : ℕ) : ℚ)

/-- Python `float` on a token matched by `-?\d+\.?\d*`. -/
def floatOfChars (cs : List Char) : ℚ :=
  match cs with
  | '-' :: rest => qNeg (floatOfCharsPos rest)
  | _ => floatOfCharsPos cs

/-- `extract_numbers_from_text` from the source: find all number tokens
and convert each with `float`. -/
def extract_numbers_from_text (text : String) : List ℚ :=
  (pyFindallNums text).map floatOfChars

/-! ## Unit conversion -/

/-- The float literal `0.45359237` of the source, exact in ℚ. -/
def kgPerLb : ℚ := mkRat 45359237 100000000

/-- `UNIT_MAP`: the four registered conversions, as a lookup from the
(from, to) pair to the conversion function. -/
def UNIT_MAP (key : String × String) : Option (ℚ → ℚ) :=
  if key = ("m", "cm") then some (fun x => qMul x 100)
  else if key = ("cm", "m") then some (fun x => qDiv x 100)
  else if key = ("kg", "lb") then some (fun x => qDiv x kgPerLb)
  else if key = ("lb", "kg") then some (fun x => qMul x kgPerLb)
  else none

/-- `convert_units` from the source: lowercase the pair, apply the
registered converter, or raise `ValueError`. -/
def convert_units (value : ℚ) (from_unit to_unit : String) : Except PyErr ℚ :=
  match UNIT_MAP (pyLower from_unit, pyLower to_unit) with
  | some f => .ok (f value)
  | none =>
      .error (.valueError ("No converter registered for " ++ from_unit ++ " -> " ++ to_unit))

/-! ## Intent classification -/

/-- Alternatives of the convert regex `\b(convert|to (?:cm|m|kg|lb))`. -/
def convertPats : List String := ["convert", "to cm", "to m", "to kg", "to lb"]

/-- Alternatives of the stats regex `\b(mean|median|average)`. -/
def statsPats : List String := ["mean", "median", "average"]

/-- Alternatives of the csv regex `\b(csv|spreadsheet|save)`. -/
def csvPats : List String := ["csv", "spreadsheet", "save"]

/-- The arithmetic tokens checked for the calculate intent. -/
def calcToks : List String := ["+", "-", "*", "/", "sqrt", "^"]

/-- `classify_intent` from the source. -/
def classify_intent (text : String) : String :=
  let tl := pyStrip (pyLower text)
  if reWordSearch tl convertPats then "convert"
  else if reWordSearch tl statsPats then "stats"
  else if reWordSearch tl csvPats then "generate_csv"
  else if pyStartsWith tl "calculate" || calcToks.any (fun tok => pyContains tl tok) then
    "calculate"
  else "unknown"

/-! ## Safe expression evaluator

The Python code parses the input with `ast.parse(expr, mode="eval")` and
walks the tree with the inner `_eval`.  The tree shapes reachable
through that grammar fragment are modelled by `PyAst`; `PyErr.unmodelled`
marks results (irrational function values) that fall outside the exact
rational model — no claim exercises them. -/

/-- Binary operator classes of the Python grammar (the last six are
parseable but absent from `ALLOWED_OPERATORS`). -/
inductive BinOpKind where
  | add | sub | mult | div | pow | mod
  | floorDiv | bitOr | bitXor | bitAnd | lshift | rshift
  deriving DecidableEq

/-- Unary operator classes of the Python grammar. -/
inductive UnOpKind where
  | usub | uadd | invert
  deriving DecidableEq

mutual
/-- Python AST expression nodes reachable through the arithmetic grammar. -/
inductive PyAst where
  | num (v : ℚ)
  | binOp (k : BinOpKind) (l r : PyAst)
  | unaryOp (k : UnOpKind) (e : PyAst)
  | call (fn : PyAst) (args : PyAstList)
  | name (id : String)
  | attr (obj : PyAst) (field : String)
/-- Argument lists of call nodes. -/
inductive PyAstList where
  | nil
  | cons (a : PyAst) (rest : PyAstList)
end

/-- `operator.truediv`: Python raises `ZeroDivisionError` on a zero
denominator. -/
def pyDiv (a b : ℚ) : Except PyErr ℚ :=
  if b = 0 then .error (.zeroDivisionError "division by zero") else .ok (qDiv a b)

/-- `operator.pow`, restricted to the integer exponents the rational
model captures; `0 ** negative` raises `ZeroDivisionError` in Python. -/
def pyPowOp (a b : ℚ) : Except PyErr ℚ :=
  if b.den = 1 then
    if a = 0 ∧ b.num < 0 then
      .error (.zeroDivisionError "0.0 cannot be raised to a negative power")
    else .ok (qPowInt a b.num)
  else .error (.unmodelled "non-integer exponent")

/-- `operator.mod`: Python `%` semantics (`x - y * floor(x / y)`),
`ZeroDivisionError` on a zero divisor. -/
def pyModOp (a b : ℚ) : Except PyErr ℚ :=
  if b = 0 then .error (.zeroDivisionError "modulo by zero")
  else .ok (qSub a (qMul b ((qFloor (qDiv a b) : ℤ) : ℚ)))

/-- `ALLOWED_OPERATORS` for binary node classes: the dict lookup
`ALLOWED_OPERATORS[type(node.op)]`, `none` meaning `KeyError`. -/
def lookupOp : BinOpKind → Option (ℚ → ℚ → Except PyErr ℚ)
  | .add => some (fun a b => .ok (qAdd a b))
  | .sub => some (fun a b => .ok (qSub a b))
  | .mult => some (fun a b => .ok (qMul a b))
  | .div => some pyDiv
  | .pow => some pyPowOp
  | .mod => some pyModOp
  | _ => none

/-- `ALLOWED_OPERATORS` for unary node classes. -/
def lookupUnop : UnOpKind → Option (ℚ → Except PyErr ℚ)
  | .usub => some (fun a => .ok (qNeg a))
  | .uadd => some (fun a => .ok a)
  | .invert => none

/-- The public names of the `math` module (CPython 3.10), as produced by
the `dir(math)` comprehension seeding `ALLOWED_NAMES`. -/
def mathModuleNames : List String :=
  ["acos", "acosh", "asin", "asinh", "atan", "atan2", "atanh", "ceil",
   "comb", "copysign", "cos", "cosh", "degrees", "dist", "e", "erf",
   "erfc", "exp", "expm1", "fabs", "factorial", "floor", "fmod", "frexp",
   "fsum", "gamma", "gcd", "hypot", "inf", "isclose", "isfinite",
   "isinf", "isnan", "isqrt", "lcm", "ldexp", "lgamma", "log", "log10",
   "log1p", "log2", "modf", "nan", "nextafter", "perm", "pi", "pow",
   "prod", "radians", "remainder", "sin", "sinh", "sqrt", "tan", "tanh",
   "tau", "trunc", "ulp"]

/-- The keys of `ALLOWED_NAMES`: the math module names plus the four
manually added builtins. -/
def allowedNameKeys : List String :=
  mathModuleNames ++ ["abs", "round", "min", "max"]

/-- Python `round` (banker's rounding, one argument). -/
def pyRoundHalfEven (x : ℚ) : ℚ :=
  let f := qSub x ((qFloor x : ℤ) : ℚ)
  if f < mkRat 1 2 then ((qFloor x : ℤ) : ℚ)
  else if mkRat 1 2 < f then ((qFloor x + 1 : ℤ) : ℚ)
  else if qFloor x % 2 = 0 then ((qFloor x : ℤ) : ℚ) else ((qFloor x + 1 : ℤ) : ℚ)

/-- The behaviour of the whitelisted callables, modelled exactly where
the result is rational and flagged `unmodelled` where it is not.  The
five float constants raise `TypeError` when called, as in Python. -/
def allowedApply (id : String) (args : List ℚ) : Except PyErr ℚ :=
  if id = "abs" || id = "fabs" then
    match args with
    | [x] => .ok (qAbs x)
    | _ => .error (.typeError (id ++ " takes exactly one argument"))
  else if id = "floor" then
    match args with
    | [x] => .ok ((qFloor x : ℤ) : ℚ)
    | _ => .error (.typeError "floor takes exactly one argument")
  else if id = "ceil" then
    match args with
    | [x] => .ok ((qCeil x : ℤ) : ℚ)
    | _ => .error (.typeError "ceil takes exactly one argument")
  else if id = "trunc" then
    match args with
    | [x] => .ok (if 0 ≤ x then ((qFloor x : ℤ) : ℚ) else ((qCeil x : ℤ) : ℚ))
    | _ => .error (.typeError "trunc takes exactly one argument")
  else if id = "round" then
    match args with
    | [x] => .ok (pyRoundHalfEven x)
    | _ => .error (.unmodelled "round with ndigits")
  else if id = "min" || id = "max" then
    match args with
    | x :: y :: rest =>
        if id = "min" then
          .ok ((y :: rest).foldl (fun acc v => if v < acc then v else acc) x)
        else
          .ok ((y :: rest).foldl (fun acc v => if acc < v then v else acc) x)
    | _ => .error (.typeError (id ++ " expected at least two arguments"))
  else if id = "sqrt" then
    match args with
    | [x] =>
        if x < 0 then .error (.valueError "math domain error")
        else
          let sn := Nat.sqrt x.num.toNat
          let sd := Nat.sqrt x.den
          if ((sn * sn : ℕ) : ℤ) = x.num ∧ sd * sd = x.den then
            .ok (mkRat (sn : ℤ) sd)
          else .error (.unmodelled "irrational square root")
    | _ => .error (.typeError "sqrt takes exactly one argument")
  else if id = "factorial" then
    match args with
    | [x] =>
        if x.den = 1 ∧ 0 ≤ x.num then .ok ((Nat.factorial x.num.toNat : ℕ) : ℚ)
        else .error (.valueError "factorial only accepts integral non-negative values")
    | _ => .error (.typeError "factorial takes exactly one argument")
  else if id = "isqrt" then
    match args with
    | [x] =>
        if x.den = 1 ∧ 0 ≤ x.num then .ok ((Nat.sqrt x.num.toNat : ℕ) : ℚ)
        else .error (.valueError "isqrt requires a nonnegative integer")
    | _ => .error (.typeError "isqrt takes exactly one argument")
  else if id = "gcd" then
    if args.all (fun a => a.den = 1) then
      .ok ((args.foldl (fun g a => Nat.gcd g a.num.natAbs) 0 : ℕ) : ℚ)
    else .error (.typeError "gcd requires integers")
  else if id = "pi" || id = "e" || id = "tau" || id = "inf" || id = "nan" then
    .error (.typeError "float object is not callable")
  else
    .error (.unmodelled "value not representable in the rational model")

/-- `ALLOWED_NAMES` as a dict: membership in the key list paired with
the modelled behaviour of the stored callable. -/
def allowedFn (id : String) : Option (List ℚ → Except PyErr ℚ) :=
  if allowedNameKeys.contains id then some (allowedApply id) else none

mutual
/-- The inner `_eval` of `safe_eval`, translated clause by clause:
numbers return their value; binary and unary operations look up the
operator class in `ALLOWED_OPERATORS` (a failed lookup is Python's
`KeyError`, raised before the children are evaluated); calls read
`node.func.id` (an `AttributeError` when the callee is not a plain
name), check the whitelist, evaluate the arguments left to right and
apply; every other node shape raises `TypeError`. -/
def evalAst : PyAst → Except PyErr ℚ
  | .num v => .ok v
  | .binOp k l r =>
      match lookupOp k with
      | none => .error (.keyError "operator class not in ALLOWED_OPERATORS")
      | some f =>
          match evalAst l with
          | .error e => .error e
          | .ok a =>
              match evalAst r with
              | .error e => .error e
              | .ok b => f a b
  | .unaryOp k e =>
      match lookupUnop k with
      | none => .error (.keyError "operator class not in ALLOWED_OPERATORS")
      | some f =>
          match evalAst e with
          | .error err => .error err
          | .ok a => f a
  | .call fn args =>
      match fn with
      | .name id =>
          match allowedFn id with
          | some f =>
              match evalArgs args with
              | .error e => .error e
              | .ok vs => f vs
          | none => .error (.valueError ("Function " ++ id ++ " not allowed"))
      | _ => .error (.attributeError "node func has no attribute id")
  | .name _ => .error (.typeError "Unsupported expression")
  | .attr _ _ => .error (.typeError "Unsupported expression")

/-- Left-to-right evaluation of a call's argument list (the
comprehension `[_eval(arg) for arg in node.args]`). -/
def evalArgs : PyAstList → Except PyErr (List ℚ)
  | .nil => .ok []
  | .cons a rest =>
      match evalAst a with
      | .error e => .error e
      | .ok v =>
          match evalArgs rest with
          | .error e => .error e
          | .ok vs => .ok (v :: vs)
end

mutual
/-- `evalAst` instrumented with a trace of every whitelist function name
actually applied during evaluation; used to state whitelist closure. -/
def evalT : PyAst → Except PyErr ℚ × List String
  | .num v => (.ok v, [])
  | .binOp k l r =>
      match lookupOp k with
      | none => (.error (.keyError "operator class not in ALLOWED_OPERATORS"), [])
      | some f =>
          match evalT l with
          | (.error e, t1) => (.error e, t1)
          | (.ok a, t1) =>
              match evalT r with
              | (.error e, t2) => (.error e, t1 ++ t2)
              | (.ok b, t2) => (f a b, t1 ++ t2)
  | .unaryOp k e =>
      match lookupUnop k with
      | none => (.error (.keyError "operator class not in ALLOWED_OPERATORS"), [])
      | some f =>
          match evalT e with
          | (.error err, t1) => (.error err, t1)
          | (.ok a, t1) => (f a, t1)
  | .call fn args =>
      match fn with
      | .name id =>
          match allowedFn id with
          | some f =>
              match evalTArgs args with
              | (.error e, t) => (.error e, t)
              | (.ok vs, t) => (f vs, t ++ [id])
          | none => (.error (.valueError ("Function " ++ id ++ " not allowed")), [])
      | _ => (.error (.attributeError "node func has no attribute id"), [])
  | .name _ => (.error (.typeError "Unsupported expression"), [])
  | .attr _ _ => (.error (.typeError "Unsupported expression"), [])

/-- Argument-list evaluation with the applied-name trace. -/
def evalTArgs : PyAstList → Except PyErr (List ℚ) × List String
  | .nil => (.ok [], [])
  | .cons a rest =>
      match evalT a with
      | (.error e, t1) => (.error e, t1)
      | (.ok v, t1) =>
          match evalTArgs rest with
          | (.error e, t2) => (.error e, t1 ++ t2)
          | (.ok vs, t2) => (.ok (v :: vs), t1 ++ t2)
end

/-! ## A model of `ast.parse(expr, mode="eval")` for the arithmetic
fragment: tokenizer and recursive-descent parser with Python's
precedence for `+ - * / % // **`, unary signs, parentheses, calls and
attribute access. -/

/-- Tokens of the modelled grammar. -/
inductive Tok where
  | num (v : ℚ)
  | ident (s : String)
  | plus | minus | star | slash | dslash | percent | dstar
  | lparen | rparen | comma | dot
  deriving DecidableEq

/-- Leading identifier characters. -/
def identTake (l : List Char) : List Char :=
  l.takeWhile (fun c => c.isAlphanum || c = '_')

/-- Tokenizer; characters outside the modelled grammar raise a
`SyntaxError` (Python rejects or parses them into nodes the evaluator
refuses anyway).  Fuel is the input length plus one. -/
def tokenizeAux : Nat → List Char → Except PyErr (List Tok)
  | 0, _ => .error (.syntaxError "tokenizer fuel exhausted")
  | _, [] => .ok []
  | fuel + 1, c :: cs =>
      if isPySpace c then tokenizeAux fuel cs
      else if c.isDigit then
        match numMatchCore (c :: cs) with
        | some (m, r) =>
            match tokenizeAux fuel r with
            | .ok ts => .ok (.num (floatOfCharsPos m) :: ts)
            | .error e => .error e
        | none => .error (.syntaxError "invalid number")
      else if c = '.' && (cs.headD ' ').isDigit then
        let fs := digitsTake cs
        match tokenizeAux fuel (cs.drop fs.length) with
        | .ok ts => .ok (.num (mkRat ((digitsValNat fs : ℕ) : ℤ) (10 ^ fs.length)) :: ts)
        | .error e => .error e
      else if c.isAlpha || c = '_' then
        let idc := identTake (c :: cs)
        match tokenizeAux fuel ((c :: cs).drop idc.length) with
        | .ok ts => .ok (.ident (String.mk idc) :: ts)
        | .error e => .error e
      else if c = '*' && cs.headD ' ' = '*' then
        match tokenizeAux fuel (cs.drop 1) with
        | .ok ts => .ok (.dstar :: ts)
        | .error e => .error e
      else if c = '/' && cs.headD ' ' = '/' then
        match tokenizeAux fuel (cs.drop 1) with
        | .ok ts => .ok (.dslash :: ts)
        | .error e => .error e
      else
        let tok : Except PyErr Tok :=
          if c = '+' then .ok .plus
          else if c = '-' then .ok .minus
          else if c = '*' then .ok .star
          else if c = '/' then .ok .slash
          else if c = '%' then .ok .percent
          else if c = '(' then .ok .lparen
          else if c = ')' then .ok .rparen
          else if c = ',' then .ok .comma
          else if c = '.' then .ok .dot
          else .error (.syntaxError "character outside the modelled grammar")
        match tok with
        | .error e => .error e
        | .ok t =>
            match tokenizeAux fuel cs with
            | .ok ts => .ok (t :: ts)
            | .error e => .error e

mutual
/-- `expr := term (("+" | "-") term)*` -/
def parseExpr : Nat → List Tok → Except PyErr (PyAst × List Tok)
  | 0, _ => .error (.syntaxError "parser fuel exhausted")
  | fuel + 1, ts =>
      match parseTerm fuel ts with
      | .error e => .error e
      | .ok (a, rest) => parseExprLoop fuel a rest

/-- Left-associative additive loop. -/
def parseExprLoop : Nat → PyAst → List Tok → Except PyErr (PyAst × List Tok)
  | 0, _, _ => .error (.syntaxError "parser fuel exhausted")
  | fuel + 1, acc, ts =>
      match ts with
      | .plus :: rest =>
          match parseTerm fuel rest with
          | .error e => .error e
          | .ok (b, rest2) => parseExprLoop fuel (.binOp .add acc b) rest2
      | .minus :: rest =>
          match parseTerm fuel rest with
          | .error e => .error e
          | .ok (b, rest2) => parseExprLoop fuel (.binOp .sub acc b) rest2
      | _ => .ok (acc, ts)

/-- `term := unary (("*" | "/" | "//" | "%") unary)*` -/
def parseTerm : Nat → List Tok → Except PyErr (PyAst × List Tok)
  | 0, _ => .error (.syntaxError "parser fuel exhausted")
  | fuel + 1, ts =>
      match parseUnary fuel ts with
      | .error e => .error e
      | .ok (a, rest) => parseTermLoop fuel a rest

/-- Left-associative multiplicative loop. -/
def parseTermLoop : Nat → PyAst → List Tok → Except PyErr (PyAst × List Tok)
  | 0, _, _ => .error (.syntaxError "parser fuel exhausted")
  | fuel + 1, acc, ts =>
      match ts with
      | .star :: rest =>
          match parseUnary fuel rest with
          | .error e => .error e
          | .ok (b, rest2) => parseTermLoop fuel (.binOp .mult acc b) rest2
      | .slash :: rest =>
          match parseUnary fuel rest with
          | .error e => .error e
          | .ok (b, rest2) => parseTermLoop fuel (.binOp .div acc b) rest2
      | .dslash :: rest =>
          match parseUnary fuel rest with
          | .error e => .error e
          | .ok (b, rest2) => parseTermLoop fuel (.binOp .floorDiv acc b) rest2
      | .percent :: rest =>
          match parseUnary fuel rest with
          | .error e => .error e
          | .ok (b, rest2) => parseTermLoop fuel (.binOp .mod acc b) rest2
      | _ => .ok (acc, ts)

/-- `unary := ("+" | "-") unary | power` -/
def parseUnary : Nat → List Tok → Except PyErr (PyAst × List Tok)
  | 0, _ => .error (.syntaxError "parser fuel exhausted")
  | fuel + 1, ts =>
      match ts with
      | .plus :: rest =>
          match parseUnary fuel rest with
          | .error e => .error e
          | .ok (a, rest2) => .ok (.unaryOp .uadd a, rest2)
      | .minus :: rest =>
          match parseUnary fuel rest with
          | .error e => .error e
          | .ok (a, rest2) => .ok (.unaryOp .usub a, rest2)
      | _ => parsePower fuel ts

/-- `power := postfix ("**" unary)?` — right-associative, and the
exponent may carry unary signs, as in Python. -/
def parsePower : Nat → List Tok → Except PyErr (PyAst × List Tok)
  | 0, _ => .error (.syntaxError "parser fuel exhausted")
  | fuel + 1, ts =>
      match parsePostfix fuel ts with
      | .ok (a, .dstar :: rest) =>
          match parseUnary fuel rest with
          | .error e => .error e
          | .ok (b, rest2) => .ok (.binOp .pow a b, rest2)
      | other => other

/-- `postfix := atom trailer*` -/
def parsePostfix : Nat → List Tok → Except PyErr (PyAst × List Tok)
  | 0, _ => .error (.syntaxError "parser fuel exhausted")
  | fuel + 1, ts =>
      match parseAtom fuel ts with
      | .error e => .error e
      | .ok (a, rest) => parseTrailers fuel a rest

/-- `trailer := "(" args? ")" | "." identifier` -/
def parseTrailers : Nat → PyAst → List Tok → Except PyErr (PyAst × List Tok)
  | 0, _, _ => .error (.syntaxError "parser fuel exhausted")
  | fuel + 1, acc, ts =>
      match ts with
      | .lparen :: .rparen :: rest2 => parseTrailers fuel (.call acc .nil) rest2
      | .lparen :: rest =>
          match parseArgs fuel rest with
          | .error e => .error e
          | .ok (args, rest2) =>
              match rest2 with
              | .rparen :: rest3 => parseTrailers fuel (.call acc args) rest3
              | _ => .error (.syntaxError "expected closing parenthesis")
      | .dot :: .ident f :: rest => parseTrailers fuel (.attr acc f) rest
      | .dot :: _ => .error (.syntaxError "expected attribute name")
      | _ => .ok (acc, ts)

/-- Comma-separated call arguments. -/
def parseArgs : Nat → List Tok → Except PyErr (PyAstList × List Tok)
  | 0, _ => .error (.syntaxError "parser fuel exhausted")
  | fuel + 1, ts =>
      match parseExpr fuel ts with
      | .error e => .error e
      | .ok (a, rest) =>
          match rest with
          | .comma :: rest2 =>
              match parseArgs fuel rest2 with
              | .error e => .error e
              | .ok (more, rest3) => .ok (.cons a more, rest3)
          | _ => .ok (.cons a .nil, rest)

/-- `atom := number | identifier | "(" expr ")"` -/
def parseAtom : Nat → List Tok → Except PyErr (PyAst × List Tok)
  | 0, _ => .error (.syntaxError "parser fuel exhausted")
  | fuel + 1, ts =>
      match ts with
      | .num v :: rest => .ok (.num v, rest)
      | .ident s :: rest => .ok (.name s, rest)
      | .lparen :: rest =>
          match parseExpr fuel rest with
          | .error e => .error e
          | .ok (a, rest2) =>
              match rest2 with
              | .rparen :: rest3 => .ok (a, rest3)
              | _ => .error (.syntaxError "mismatched parenthesis")
      | _ => .error (.syntaxError "invalid syntax")
end

/-- Model of `ast.parse(expr, mode="eval")`: tokenize, parse a single
expression, and require the whole input to be consumed. -/
def pyParse (s : String) : Except PyErr PyAst :=
  match tokenizeAux (s.data.length + 1) s.data with
  | .error e => .error e
  | .ok ts =>
      match parseExpr (10 * ts.length + 10) ts with
      | .error e => .error e
      | .ok (a, []) => .ok a
      | .ok (_, _ :: _) => .error (.syntaxError "invalid syntax")

/-- `safe_eval` from the source: parse, then walk the tree; a parse
failure propagates as the `SyntaxError` it raises in Python. -/
def safe_eval (expr : String) : Except PyErr ℚ :=
  match pyParse expr with
  | .error e => .error e
  | .ok node => evalAst node

/-! ## Result records, handlers and dispatcher -/

/-- The result dict a handler returns; a key the handler does not set is
a `none` field. -/
structure Record where
  status : String
  intent : String
  result : Option ℚ := none
  error : Option String := none
  operation : Option String := none
  csv : Option String := none
  fromUnit : Option String := none
  toUnit : Option String := none
  deriving DecidableEq

/-- `re.sub(r"^(calculate|what is|evaluate)\s*", "", text)`: the anchored
match strips one leading trigger phrase and the whitespace after it. -/
def stripCalcTrigger (text : String) : String :=
  let cs := text.data
  let stripped : Option (List Char) :=
    if List.isPrefixOf "calculate".data cs then some ((cs.drop 9).dropWhile isPySpace)
    else if List.isPrefixOf "what is".data cs then some ((cs.drop 7).dropWhile isPySpace)
    else if List.isPrefixOf "evaluate".data cs then some ((cs.drop 8).dropWhile isPySpace)
    else none
  match stripped with
  | some rest => String.mk rest
  | none => text

/-- Python `str.replace`: substitute every non-overlapping occurrence
of the pattern, scanning left to right. -/
def replaceChars (pat rep : List Char) : Nat → List Char → List Char
  | 0, l => l
  | _, [] => []
  | fuel + 1, c :: cs =>
      if List.isPrefixOf pat (c :: cs) then
        rep ++ replaceChars pat rep fuel ((c :: cs).drop pat.length)
      else c :: replaceChars pat rep fuel cs

/-- `text.replace(old, new)` for a nonempty pattern. -/
def pyReplace (s pat rep : String) : String :=
  String.mk (replaceChars pat.data rep.data (s.data.length + 1) s.data)

/-- `handle_calculate` from the source: strip the trigger phrase, map
`^` to `**`, delegate to `safe_eval`; an evaluator exception
propagates. -/
def handle_calculate (text : String) : Except PyErr Record :=
  let t := pyStrip (stripCalcTrigger text)
  let t2 := pyReplace t "^" "**"
  match safe_eval t2 with
  | .error e => .error e
  | .ok r => .ok { status := "ok", intent := "calculate", result := some r }

/-- Leading run of `[a-zA-Z]`. -/
def lettersTake (l : List Char) : List Char := l.takeWhile Char.isAlpha

/-- The `\s*(?:to|in)\s*([a-zA-Z]+)` tail of the conversion regex; the
two keyword alternatives start with distinct letters, so no further
backtracking arises. -/
def convToIn (l : List Char) : Option (List Char) :=
  let l2 := l.dropWhile isPySpace
  let afterKw : Option (List Char) :=
    if List.isPrefixOf "to".data l2 then some (l2.drop 2)
    else if List.isPrefixOf "in".data l2 then some (l2.drop 2)
    else none
  match afterKw with
  | none => none
  | some r =>
      let r2 := r.dropWhile isPySpace
      let u2 := lettersTake r2
      if u2.isEmpty then none else some u2

/-- Backtracking over the greedy first unit group `([a-zA-Z]+)`: try the
longest prefix of the letter run first, shrinking until the tail
matches, as the regex engine does. -/
def convTryLens (numTok : List Char) (ls : List Char) (afterLs : List Char) :
    Nat → Option (String × String × String)
  | 0 => none
  | k + 1 =>
      match convToIn ((ls.drop (k + 1)) ++ afterLs) with
      | some u2 => some (String.mk numTok, String.mk (ls.take (k + 1)), String.mk u2)
      | none => convTryLens numTok ls afterLs k

/-- Match the conversion regex
`(-?\d+\.?\d*)\s*([a-zA-Z]+)\s*(?:to|in)\s*([a-zA-Z]+)` anchored at the
head of `cs`, returning the three captured groups. -/
def matchConvertAt (cs : List Char) : Option (String × String × String) :=
  match numMatchAt cs with
  | none => none
  | some (numTok, r1) =>
      let r2 := r1.dropWhile isPySpace
      let ls := lettersTake r2
      convTryLens numTok ls (r2.drop ls.length) ls.length

/-- `re.search` scan for the conversion regex: leftmost match wins. -/
def convSearchAux : Nat → List Char → Option (String × String × String)
  | 0, _ => none
  | _, [] => none
  | fuel + 1, c :: cs =>
      match matchConvertAt (c :: cs) with
      | some g => some g
      | none => convSearchAux fuel cs

/-- First match of the conversion regex anywhere in `s`. -/
def convSearch (s : String) : Option (String × String × String) :=
  convSearchAux (s.data.length + 1) s.data

/-- `handle_convert` from the source: parse value and units with one
regex, report a format error on no match, else delegate to
`convert_units`, whose `ValueError` propagates. -/
def handle_convert (text : String) : Except PyErr Record :=
  match convSearch text with
  | none =>
      .ok { status := "error", intent := "convert", error := some "Invalid conversion format" }
  | some (value, from_unit, to_unit) =>
      match convert_units (floatOfChars value.data) from_unit to_unit with
      | .error e => .error e
      | .ok r =>
          .ok { status := "ok", intent := "convert", result := some r,
                fromUnit := some from_unit, toUnit := some to_unit }

/-- Insertion into an ascending list. -/
def insertSorted (x : ℚ) : List ℚ → List ℚ
  | [] => [x]
  | y :: ys => if x ≤ y then x :: y :: ys else y :: insertSorted x ys

/-- Python `sorted` on rationals (ascending). -/
def pySorted (l : List ℚ) : List ℚ := l.foldr insertSorted []

/-- `statistics.mean`: exact sum over length. -/
def statMean (l : List ℚ) : ℚ := qDiv (l.foldr qAdd 0) ((l.length : ℕ) : ℚ)

/-- `statistics.median`: middle of the sorted list, averaging the two
middle values on even length. -/
def statMedian (l : List ℚ) : ℚ :=
  let s := pySorted l
  let n := s.length
  if n % 2 = 1 then s.getD (n / 2) 0
  else qDiv (qAdd (s.getD (n / 2 - 1) 0) (s.getD (n / 2) 0)) 2

/-- `handle_stats` from the source.  Note the substring checks run on
the raw, un-lowercased text. -/
def handle_stats (text : String) : Except PyErr Record :=
  let nums := extract_numbers_from_text text
  if nums.isEmpty then
    .ok { status := "error", intent := "stats", error := some "No numbers found" }
  else if pyContains text "mean" || pyContains text "average" then
    .ok { status := "ok", intent := "stats", operation := some "mean",
          result := some (statMean nums) }
  else if pyContains text "median" then
    .ok { status := "ok", intent := "stats", operation := some "median",
          result := some (statMedian nums) }
  else
    .ok { status := "error", intent := "stats", error := some "No valid operation found" }

/-- Python `str` of a nonnegative index. -/
def pyIntStr (n : Nat) : String := toString n

/-- Left-pad with zeros to width `k`. -/
def padZeros (k : Nat) (s : String) : String :=
  if s.length < k then String.mk (List.replicate (k - s.length) '0') ++ s else s

/-- Model of Python `str()` on the float values the program produces:
exact for integral values ("1.0") and for values with a short finite
decimal expansion; anything else (never produced in the claims) is
shown as a fraction. -/
def pyFloatStr (q : ℚ) : String :=
  if q.den = 1 then toString q.num ++ ".0"
  else
    match (List.range 51).find? (fun k => (10 : ℕ) ^ k % q.den = 0) with
    | some k =>
        let a := (q.num.natAbs * ((10 : ℕ) ^ k / q.den))
        let sign := if q.num < 0 then "-" else ""
        sign ++ toString (a / 10 ^ k) ++ "." ++ padZeros k (toString (a % 10 ^ k))
    | none => toString q

/-- `csv.writer` minimal quoting: quote a field only when it contains a
delimiter, quote or line-break character (no numeric field does). -/
def csvQuoteField (f : String) : String :=
  if f.data.any (fun c => c = ',' || c = '"' || c = '\r' || c = '\n') then
    "\"" ++ String.mk (f.data.foldr (fun c acc => if c = '"' then '"' :: '"' :: acc else c :: acc) []) ++ "\""
  else f

/-- `csv.writer.writerow` with the default dialect: comma-joined fields,
`\r\n` terminator. -/
def csvRow (fields : List String) : String :=
  String.intercalate "," (fields.map csvQuoteField) ++ "\r\n"

/-- The enumerated data rows, indices starting at 1. -/
def csvRowsAux : Nat → List ℚ → String
  | _, [] => ""
  | i, v :: rest => csvRow [pyIntStr i, pyFloatStr v] ++ csvRowsAux (i + 1) rest

/-- `handle_generate_csv` from the source. -/
def handle_generate_csv (text : String) : Except PyErr Record :=
  let nums := extract_numbers_from_text text
  if nums.isEmpty then
    .ok { status := "error", intent := "generate_csv", error := some "No numbers found" }
  else
    .ok { status := "ok", intent := "generate_csv",
          csv := some (csvRow ["index", "value"] ++ csvRowsAux 1 nums) }

/-- `handle_unknown` from the source. -/
def handle_unknown (_text : String) : Except PyErr Record :=
  .ok { status := "error", intent := "unknown",
        error := some "Sorry, I couldn't understand your request." }

/-- `INTENT_HANDLERS` dispatch table. -/
def INTENT_HANDLERS : List (String × (String → Except PyErr Record)) :=
  [("calculate", handle_calculate), ("convert", handle_convert),
   ("stats", handle_stats), ("generate_csv", handle_generate_csv),
   ("unknown", handle_unknown)]

/-- `agent_process` from the source: classify, look the handler up
(defaulting to `handle_unknown`), and run it; handler exceptions
propagate. -/
def agent_process (text : String) : Except PyErr Record :=
  ((INTENT_HANDLERS.lookup (classify_intent text)).getD handle_unknown) text

/-! ## Theorems about the claims -/

/-- The Python class name of a modelled exception. -/
def errKindName : PyErr → String
  | .valueError _ => "ValueError"
  | .typeError _ => "TypeError"
  | .keyError _ => "KeyError"
  | .attributeError _ => "AttributeError"
  | .syntaxError _ => "SyntaxError"
  | .zeroDivisionError _ => "ZeroDivisionError"
  | .unmodelled _ => "Unmodelled"

/-- C5: agent_process "calculate 2 + 3 * 4" returns the Ok calculate
record with result 14; and the calculate handler first strips a known
leading trigger phrase, replaces every caret with the power operator,
and delegates the remaining text to the safe evaluator (shown both in
general and on the concrete caret input "calculate 3 ^ 2" = 9). -/
theorem C5_calculate_pipeline :
    agent_process "calculate 2 + 3 * 4" =
      .ok { status := "ok", intent := "calculate", result := some 14 } ∧
    (∀ t : String,
      handle_calculate t =
        match safe_eval (pyReplace (pyStrip (stripCalcTrigger t)) "^" "**") with
        | .error e => .error e
        | .ok r => .ok { status := "ok", intent := "calculate", result := some r }) ∧
    handle_calculate "calculate 3 ^ 2" =
      .ok { status := "ok", intent := "calculate", result := some 9 } :=
  ⟨by decide, fun t => rfl, by decide⟩

/-- C6: converting any value kg→lb and the result lb→kg returns the
original value exactly over the rational model — the two registered
conversions divide and multiply by the same constant 0.45359237 — hence
in particular within the claimed 1e-9 relative tolerance. -/
theorem C6_kg_lb_roundtrip (x : ℚ) :
    (match convert_units x "kg" "lb" with
     | .error e => .error e
     | .ok y => convert_units y "lb" "kg") = Except.ok x := by
  have h1 : convert_units x "kg" "lb" = .ok (qDiv x kgPerLb) := rfl
  rw [h1]
  show convert_units (qDiv x kgPerLb) "lb" "kg" = Except.ok x
  have h2 : convert_units (qDiv x kgPerLb) "lb" "kg" =
      .ok (qMul (qDiv x kgPerLb) kgPerLb) := rfl
  have hc : kgPerLb ≠ 0 := by
    rw [kgPerLb, Rat.mkRat_eq_divInt, Rat.divInt_eq_div]
    norm_num
  rw [h2, qMul_eq, qDiv_eq, div_mul_cancel₀ x hc]

/-- C8: agent_process "generate csv 1 2 3" returns the Ok generate_csv
record whose csv text is exactly a header row followed by one CRLF row
per extracted number with its 1-based index and value. -/
theorem C8_generate_csv_example :
    agent_process "generate csv 1 2 3" =
      .ok { status := "ok", intent := "generate_csv",
            csv := some "index,value\r\n1,1.0\r\n2,2.0\r\n3,3.0\r\n" } := by
  decide

/-- C9: the stats handler's keyword check is case-sensitive on the raw
text while the classifier lowercases: "Mean of 5, 10, 15" classifies as
stats but the handler answers the Error record "No valid operation
found" instead of the mean. -/
theorem C9_case_sensitivity_mismatch :
    classify_intent "Mean of 5, 10, 15" = "stats" ∧
    agent_process "Mean of 5, 10, 15" =
      .ok { status := "error", intent := "stats",
            error := some "No valid operation found" } :=
  ⟨by decide, by decide⟩

/-- C10: on parseable inputs whose call node's callee is not a simple
identifier — an attribute access "math.sqrt(2)" and a call on a literal
"(1)(2)" — safe_eval's read of node.func.id faults with AttributeError
before the whitelist check, a kind distinct from the evaluator's
defined error kinds (ValueError for disallowed functions, SyntaxError,
TypeError for unsupported expressions). -/
theorem C10_non_name_callee_attribute_error :
    safe_eval "math.sqrt(2)" = .error (.attributeError "node func has no attribute id") ∧
    safe_eval "(1)(2)" = .error (.attributeError "node func has no attribute id") ∧
    errKindName (.attributeError "node func has no attribute id") = "AttributeError" ∧
    (["ValueError", "SyntaxError", "TypeError"].contains "AttributeError") = false :=
  ⟨by decide, by decide, rfl, by decide⟩

/-- C7: the stats handler fails with the no-numbers error when the text
contains no numeric substring; otherwise it returns the arithmetic mean
when the text contains "mean" or "average", else the median when it
contains "median", else fails with the no-operation error; and
agent_process "mean of 5, 10, 15" is the Ok stats record with operation
mean and result 10. -/
theorem C7_stats_handler :
    (∀ t : String, extract_numbers_from_text t = [] →
      handle_stats t =
        .ok { status := "error", intent := "stats", error := some "No numbers found" }) ∧
    (∀ t : String, extract_numbers_from_text t ≠ [] →
      (pyContains t "mean" || pyContains t "average") = true →
      handle_stats t =
        .ok { status := "ok", intent := "stats", operation := some "mean",
              result := some (statMean (extract_numbers_from_text t)) }) ∧
    (∀ t : String, extract_numbers_from_text t ≠ [] →
      (pyContains t "mean" || pyContains t "average") = false →
      pyContains t "median" = true →
      handle_stats t =
        .ok { status := "ok", intent := "stats", operation := some "median",
              result := some (statMedian (extract_numbers_from_text t)) }) ∧
    (∀ t : String, extract_numbers_from_text t ≠ [] →
      (pyContains t "mean" || pyContains t "average") = false →
      pyContains t "median" = false →
      handle_stats t =
        .ok { status := "error", intent := "stats",
              error := some "No valid operation found" }) ∧
    agent_process "mean of 5, 10, 15" =
      .ok { status := "ok", intent := "stats", operation := some "mean",
            result := some 10 } := by
  have hne : ∀ t : String, extract_numbers_from_text t ≠ [] →
      (extract_numbers_from_text t).isEmpty = false := by
    intro t h
    cases hx : extract_numbers_from_text t with
    | nil => exact absurd hx h
    | cons a l => rfl
  refine ⟨?_, ?_, ?_, ?_, by decide⟩
  · intro t h
    simp only [handle_stats, h, List.isEmpty_nil, if_true]
  · intro t h1 h2
    simp only [handle_stats, hne t h1, h2, Bool.false_eq_true, if_false, if_true]
  · intro t h1 h2 h3
    simp only [handle_stats, hne t h1, h2, h3, Bool.false_eq_true, if_false, if_true]
  · intro t h1 h2 h3
    simp only [handle_stats, hne t h1, h2, h3, Bool.false_eq_true, if_false]

/-- C7 witness: the mean branch of the stats handler applied at the
concrete input of the claim. -/
theorem C7_stats_handler_witness :
    handle_stats "mean of 5, 10, 15" =
      .ok { status := "ok", intent := "stats", operation := some "mean",
            result := some (statMean (extract_numbers_from_text "mean of 5, 10, 15")) } :=
  C7_stats_handler.2.1 "mean of 5, 10, 15" (by decide) (by decide)

/-- C4 counterexample: the claim says the calculate check accepts the
prefixes "calculate", "what is" and "evaluate", but the classifier only
tests the "calculate" prefix: "what is 7" (no earlier category matches,
no arithmetic token) classifies as unknown, not calculate. -/
theorem C4_counterexample : classify_intent "what is 7" = "unknown" := by decide

/-- C4 amended: classify_intent checks convert, then stats, then csv,
then calculate — the calculate test being the prefix "calculate" or an
arithmetic symbol/function token, the "what is"/"evaluate" trigger
phrases being recognised only by the calculate handler, not the
classifier — else unknown, case-insensitively, first match winning; in
particular classify_intent "mean of 2 + 2" = stats even though the text
contains an arithmetic symbol. -/
theorem C4_classifier_order :
    (∀ t : String, reWordSearch (pyStrip (pyLower t)) convertPats = true →
      classify_intent t = "convert") ∧
    (∀ t : String, reWordSearch (pyStrip (pyLower t)) convertPats = false →
      reWordSearch (pyStrip (pyLower t)) statsPats = true →
      classify_intent t = "stats") ∧
    (∀ t : String, reWordSearch (pyStrip (pyLower t)) convertPats = false →
      reWordSearch (pyStrip (pyLower t)) statsPats = false →
      reWordSearch (pyStrip (pyLower t)) csvPats = true →
      classify_intent t = "generate_csv") ∧
    (∀ t : String, reWordSearch (pyStrip (pyLower t)) convertPats = false →
      reWordSearch (pyStrip (pyLower t)) statsPats = false →
      reWordSearch (pyStrip (pyLower t)) csvPats = false →
      (pyStartsWith (pyStrip (pyLower t)) "calculate" ||
        calcToks.any (fun tok => pyContains (pyStrip (pyLower t)) tok)) = true →
      classify_intent t = "calculate") ∧
    (∀ t : String, reWordSearch (pyStrip (pyLower t)) convertPats = false →
      reWordSearch (pyStrip (pyLower t)) statsPats = false →
      reWordSearch (pyStrip (pyLower t)) csvPats = false →
      (pyStartsWith (pyStrip (pyLower t)) "calculate" ||
        calcToks.any (fun tok => pyContains (pyStrip (pyLower t)) tok)) = false →
      classify_intent t = "unknown") ∧
    classify_intent "mean of 2 + 2" = "stats" := by
  refine ⟨?_, ?_, ?_, ?_, ?_, by decide⟩
  · intro t h1
    simp only [classify_intent, h1, if_true]
  · intro t h1 h2
    simp only [classify_intent, h1, h2, Bool.false_eq_true, if_false, if_true]
  · intro t h1 h2 h3
    simp only [classify_intent, h1, h2, h3, Bool.false_eq_true, if_false, if_true]
  · intro t h1 h2 h3 h4
    simp only [classify_intent, h1, h2, h3, h4, Bool.false_eq_true, if_false, if_true]
  · intro t h1 h2 h3 h4
    simp only [classify_intent, h1, h2, h3, h4, Bool.false_eq_true, if_false]

/-- C4 witness: the stats tie-break conjunct applied at the concrete
input "mean of 2 + 2". -/
theorem C4_classifier_order_witness : classify_intent "mean of 2 + 2" = "stats" :=
  C4_classifier_order.2.1 "mean of 2 + 2" (by decide) (by decide)

/-- C1 counterexample: handlers can raise.  "10 kg to cm" classifies as
convert and matches the conversion regex, but the pair (kg, cm) is not
registered, so convert_units raises ValueError and the exception
propagates out of agent_process instead of becoming an Error record. -/
theorem C1_counterexample :
    agent_process "10 kg to cm" =
      .error (.valueError "No converter registered for kg -> cm") := by decide

/-- C1 amended: the stats, generate_csv and unknown handlers always
return records, and the convert handler returns the invalid-format
Error record whenever its regex fails to match; but failures inside
the unit converter (and the evaluator) are not caught and propagate
out of agent_process as exceptions. -/
theorem C1_handler_totality :
    (∀ t : String, ∃ r : Record, handle_stats t = .ok r) ∧
    (∀ t : String, ∃ r : Record, handle_generate_csv t = .ok r) ∧
    (∀ t : String, ∃ r : Record, handle_unknown t = .ok r) ∧
    (∀ t : String, convSearch t = none →
      handle_convert t =
        .ok { status := "error", intent := "convert",
              error := some "Invalid conversion format" }) := by
  refine ⟨?_, ?_, fun t => ⟨_, rfl⟩, ?_⟩
  · intro t
    simp only [handle_stats]
    split
    · exact ⟨_, rfl⟩
    · split
      · exact ⟨_, rfl⟩
      · split
        · exact ⟨_, rfl⟩
        · exact ⟨_, rfl⟩
  · intro t
    simp only [handle_generate_csv]
    split
    · exact ⟨_, rfl⟩
    · exact ⟨_, rfl⟩
  · intro t h
    simp only [handle_convert, h]

/-- C1 witness: the convert handler's invalid-format branch at a
concrete input with no regex match. -/
theorem C1_handler_totality_witness :
    handle_convert "hello" =
      .ok { status := "error", intent := "convert",
            error := some "Invalid conversion format" } :=
  C1_handler_totality.2.2.2 "hello" (by decide)

/-- A tower of `n` nested unary-minus nodes over the literal 1:
expression nesting depth `n`. -/
def nestNeg : Nat → PyAst
  | 0 => .num 1
  | n + 1 => .unaryOp .usub (nestNeg n)

/-- Evaluating the nested tower always succeeds, alternating sign. -/
theorem nestNeg_eval (n : Nat) :
    evalAst (nestNeg n) = .ok (if n % 2 = 0 then 1 else -1) := by
  induction n with
  | zero => rfl
  | succ k ih =>
      show evalAst (.unaryOp .usub (nestNeg k)) = _
      simp only [evalAst, lookupUnop]
      rw [ih]
      show Except.ok (qNeg (if k % 2 = 0 then 1 else -1)) = _
      rw [qNeg_eq]
      rcases Nat.mod_two_eq_zero_or_one k with h | h
      · have h2 : (k + 1) % 2 = 1 := by omega
        rw [h, h2]
        norm_num
      · have h2 : (k + 1) % 2 = 0 := by omega
        rw [h, h2]
        norm_num

/-- C3 counterexample: the evaluator has no depth guard — an expression
nested 300 deep (beyond the suggested 256 limit) evaluates successfully
to 1 instead of failing with a DepthExceeded-kind error (no such error
kind exists in the code). -/
theorem C3_counterexample : evalAst (nestNeg 300) = .ok 1 := by
  rw [nestNeg_eval]
  norm_num

/-- C3 amended: safe_eval bounds no recursion depth — every input whose
expression nesting exceeds 256 is still evaluated normally by the
structurally recursive tree walk (in the Python runtime, extreme
nesting exhausts the interpreter call stack as a RecursionError rather
than producing any DepthExceeded-kind error). -/
theorem C3_no_depth_guard (n : Nat) (_h : 256 < n) :
    ∃ v : ℚ, evalAst (nestNeg n) = .ok v :=
  ⟨_, nestNeg_eval n⟩

/-- C3 witness: the amended theorem at depth 300. -/
theorem C3_no_depth_guard_witness :
    256 < 300 ∧ ∃ v : ℚ, evalAst (nestNeg 300) = .ok v :=
  ⟨by decide, C3_no_depth_guard 300 (by decide)⟩

/-- A whitelist hit stored in the dict implies key membership. -/
theorem allowedFn_some_contains {id : String} {f : List ℚ → Except PyErr ℚ}
    (h : allowedFn id = some f) : allowedNameKeys.contains id = true := by
  by_cases hc : allowedNameKeys.contains id = true
  · exact hc
  · rw [allowedFn, if_neg hc] at h
    exact absurd h (by simp)

mutual
/-- The result component of the instrumented evaluator agrees with
`evalAst`. -/
theorem evalT_fst_eq : ∀ e : PyAst, (evalT e).1 = evalAst e
  | .num _ => rfl
  | .name _ => rfl
  | .attr _ _ => rfl
  | .binOp k l r => by
      have ih1 := evalT_fst_eq l
      have ih2 := evalT_fst_eq r
      simp only [evalT, evalAst]
      cases hk : lookupOp k with
      | none => rfl
      | some f =>
          rcases hl : evalT l with ⟨a, t1⟩
          have ha : a = evalAst l := by rw [← ih1, hl]
          rw [← ha]
          cases a with
          | error e1 => rfl
          | ok av =>
              rcases hr : evalT r with ⟨b, t2⟩
              have hb : b = evalAst r := by rw [← ih2, hr]
              rw [← hb]
              cases b with
              | error e2 => rfl
              | ok bv => rfl
  | .unaryOp k e => by
      have ih := evalT_fst_eq e
      simp only [evalT, evalAst]
      cases hk : lookupUnop k with
      | none => rfl
      | some f =>
          rcases he : evalT e with ⟨a, t1⟩
          have ha : a = evalAst e := by rw [← ih, he]
          rw [← ha]
          cases a with
          | error e1 => rfl
          | ok av => rfl
  | .call fn args => by
      have ihA := evalTArgs_fst_eq args
      cases fn with
      | name id =>
          simp only [evalT, evalAst]
          cases hA : allowedFn id with
          | none => rfl
          | some f =>
              rcases ha : evalTArgs args with ⟨rs, t⟩
              have hr : rs = evalArgs args := by rw [← ihA, ha]
              rw [← hr]
              cases rs with
              | error e => rfl
              | ok vs => rfl
      | num v => rfl
      | binOp k l r => rfl
      | unaryOp k e => rfl
      | call f2 a2 => rfl
      | attr o fld => rfl

/-- Argument-list version of `evalT_fst_eq`. -/
theorem evalTArgs_fst_eq : ∀ es : PyAstList, (evalTArgs es).1 = evalArgs es
  | .nil => rfl
  | .cons a rest => by
      have ih1 := evalT_fst_eq a
      have ih2 := evalTArgs_fst_eq rest
      simp only [evalT, evalTArgs, evalArgs]
      rcases h1 : evalT a with ⟨r, t1⟩
      have hr : r = evalAst a := by rw [← ih1, h1]
      rw [← hr]
      cases r with
      | error e => rfl
      | ok v =>
          rcases h2 : evalTArgs rest with ⟨rs, t2⟩
          have hrs : rs = evalArgs rest := by rw [← ih2, h2]
          rw [← hrs]
          cases rs with
          | error e => rfl
          | ok vs => rfl
end

mutual
/-- Whitelist closure: every function name the evaluator applies while
evaluating any expression is a key of `ALLOWED_NAMES`. -/
theorem evalT_trace_allowed : ∀ e : PyAst, ∀ n : String,
    n ∈ (evalT e).2 → allowedNameKeys.contains n = true
  | .num _ => by
      intro n h
      simp only [evalT] at h
      exact absurd h (List.not_mem_nil n)
  | .name _ => by
      intro n h
      simp only [evalT] at h
      exact absurd h (List.not_mem_nil n)
  | .attr _ _ => by
      intro n h
      simp only [evalT] at h
      exact absurd h (List.not_mem_nil n)
  | .binOp k l r => by
      intro n h
      simp only [evalT] at h
      cases hk : lookupOp k with
      | none =>
          rw [hk] at h
          exact absurd h (List.not_mem_nil n)
      | some f =>
          rw [hk] at h
          rcases hl : evalT l with ⟨a, t1⟩
          rw [hl] at h
          have ih1 : ∀ m : String, m ∈ t1 → allowedNameKeys.contains m = true := by
            intro m hm
            exact evalT_trace_allowed l m (by rw [hl]; exact hm)
          cases a with
          | error e1 => exact ih1 n h
          | ok av =>
              rcases hr : evalT r with ⟨b, t2⟩
              rw [hr] at h
              have ih2 : ∀ m : String, m ∈ t2 → allowedNameKeys.contains m = true := by
                intro m hm
                exact evalT_trace_allowed r m (by rw [hr]; exact hm)
              cases b with
              | error e2 =>
                  rcases List.mem_append.mp h with hm | hm
                  · exact ih1 n hm
                  · exact ih2 n hm
              | ok bv =>
                  rcases List.mem_append.mp h with hm | hm
                  · exact ih1 n hm
                  · exact ih2 n hm
  | .unaryOp k e => by
      intro n h
      simp only [evalT] at h
      cases hk : lookupUnop k with
      | none =>
          rw [hk] at h
          exact absurd h (List.not_mem_nil n)
      | some f =>
          rw [hk] at h
          rcases he : evalT e with ⟨a, t1⟩
          rw [he] at h
          have ih : ∀ m : String, m ∈ t1 → allowedNameKeys.contains m = true := by
            intro m hm
            exact evalT_trace_allowed e m (by rw [he]; exact hm)
          cases a with
          | error e1 => exact ih n h
          | ok av => exact ih n h
  | .call fn args => by
      intro n h
      cases fn with
      | name id =>
          simp only [evalT] at h
          cases hA : allowedFn id with
          | none =>
              rw [hA] at h
              exact absurd h (List.not_mem_nil n)
          | some f =>
              rw [hA] at h
              rcases ha : evalTArgs args with ⟨rs, t⟩
              rw [ha] at h
              have ihA : ∀ m : String, m ∈ t → allowedNameKeys.contains m = true := by
                intro m hm
                exact evalTArgs_trace_allowed args m (by rw [ha]; exact hm)
              cases rs with
              | error e => exact ihA n h
              | ok vs =>
                  rcases List.mem_append.mp h with hm | hm
                  · exact ihA n hm
                  · have hn : n = id := List.mem_singleton.mp hm
                    rw [hn]
                    exact allowedFn_some_contains hA
      | num v => exact absurd h (List.not_mem_nil n)
      | binOp k l r => exact absurd h (List.not_mem_nil n)
      | unaryOp k e => exact absurd h (List.not_mem_nil n)
      | call f2 a2 => exact absurd h (List.not_mem_nil n)
      | attr o fld => exact absurd h (List.not_mem_nil n)

/-- Argument-list version of the whitelist closure. -/
theorem evalTArgs_trace_allowed : ∀ es : PyAstList, ∀ n : String,
    n ∈ (evalTArgs es).2 → allowedNameKeys.contains n = true
  | .nil => by
      intro n h
      simp only [evalTArgs] at h
      exact absurd h (List.not_mem_nil n)
  | .cons a rest => by
      intro n h
      simp only [evalTArgs] at h
      rcases h1 : evalT a with ⟨r, t1⟩
      rw [h1] at h
      have ih1 : ∀ m : String, m ∈ t1 → allowedNameKeys.contains m = true := by
        intro m hm
        exact evalT_trace_allowed a m (by rw [h1]; exact hm)
      cases r with
      | error e => exact ih1 n h
      | ok v =>
          rcases h2 : evalTArgs rest with ⟨rs, t2⟩
          rw [h2] at h
          have ih2 : ∀ m : String, m ∈ t2 → allowedNameKeys.contains m = true := by
            intro m hm
            exact evalTArgs_trace_allowed rest m (by rw [h2]; exact hm)
          cases rs with
          | error e =>
              rcases List.mem_append.mp h with hm | hm
              · exact ih1 n hm
              · exact ih2 n hm
          | ok vs =>
              rcases List.mem_append.mp h with hm | hm
              · exact ih1 n hm
              · exact ih2 n hm
end

/-- C2 counterexample: "x + foo(1)" contains the non-whitelisted
identifier foo in call position, yet safe_eval does not fail with a
disallowed-function ValueError naming foo — evaluation reaches the bare
name x first and raises the unsupported-expression TypeError. -/
theorem C2_counterexample :
    safe_eval "x + foo(1)" = .error (.typeError "Unsupported expression") ∧
    errKindName (.typeError "Unsupported expression") = "TypeError" ∧
    (["ValueError"].contains "TypeError") = false :=
  ⟨by decide, rfl, by decide⟩

/-- C2 amended: when evaluation reaches a call whose callee identifier
is not a whitelist key, it fails with the disallowed-function ValueError
naming that identifier and the function is never invoked (in particular
for a whole-input call such as the spec's "exec(1)"); the instrumented
evaluator computes the same results as safe_eval's tree walk; and the
whitelist tables are closed — every function name applied during the
evaluation of any expression is a key of ALLOWED_NAMES. -/
theorem C2_whitelist_closure :
    (∀ id : String, ∀ args : PyAstList, allowedNameKeys.contains id = false →
      evalAst (.call (.name id) args) =
        .error (.valueError ("Function " ++ id ++ " not allowed"))) ∧
    safe_eval "exec(1)" = .error (.valueError "Function exec not allowed") ∧
    (∀ e : PyAst, (evalT e).1 = evalAst e) ∧
    (∀ e : PyAst, ∀ n : String, n ∈ (evalT e).2 → allowedNameKeys.contains n = true) := by
  refine ⟨?_, by decide, fun e => evalT_fst_eq e, fun e n h => evalT_trace_allowed e n h⟩
  intro id args h
  simp only [evalAst, allowedFn, h, Bool.false_eq_true, if_false]

/-- C2 witness: the disallowed-call conjunct at the identifier foo with
no arguments, and the closure conjunct at an evaluation that applies
sqrt. -/
theorem C2_whitelist_closure_witness :
    evalAst (.call (.name "foo") .nil) =
      .error (.valueError ("Function " ++ "foo" ++ " not allowed")) ∧
    allowedNameKeys.contains "sqrt" = true :=
  ⟨C2_whitelist_closure.1 "foo" .nil (by decide),
   C2_whitelist_closure.2.2.2 (.call (.name "sqrt") .nil) "sqrt" (by decide)⟩

end CalcAgent
